import Mathlib

/-!
Verification of the Melian python client (`src/melian/client.py`).

The client is shallowly embedded: Python strings are modelled as `List Char`
(wrapped into `String` at API boundaries), bytes objects as `List Nat` with
every element below 256, and fallible operations as `Except`/`Option`.
Socket effects are modelled by passing the outcome of each OS call
(dial, sendall, successive recv results) as explicit script arguments.
-/

namespace Melian

/-! ## Python primitives: strip, split, int() -/

/-- Python `str.strip()` on the character list: drop whitespace on both ends. -/
def pyStrip (cs : List Char) : List Char :=
  ((cs.dropWhile Char.isWhitespace).reverse.dropWhile Char.isWhitespace).reverse

/-- Python `str.split(sep)` for a one-character separator: all occurrences
split, empty fields kept (`"".split(",") == [""]`). -/
def splitOnChar (c : Char) : List Char → List (List Char)
  | [] => [[]]
  | x :: xs =>
    if x = c then [] :: splitOnChar c xs
    else
      match splitOnChar c xs with
      | [] => [[x]]
      | h :: t => (x :: h) :: t

/-- Python `str.split(sep, 1)` / `in` test combined: locate the first
occurrence of `c`, returning the characters before and after it. -/
def breakAtChar (c : Char) : List Char → Option (List Char × List Char)
  | [] => none
  | x :: xs =>
    if x = c then some ([], xs)
    else (breakAtChar c xs).map (fun p => (x :: p.1, p.2))

/-- Python `str.rpartition(sep)` for a one-character separator, keeping only
the two sides: characters before and after the LAST occurrence of `c`. -/
def rpartitionAux (c : Char) : List Char → Option (List Char × List Char)
  | [] => none
  | x :: xs =>
    match rpartitionAux c xs with
    | some (a, b) => some (x :: a, b)
    | none => if x = c then some ([], xs) else none

/-- Valid tail of a Python int literal after the first digit: digits with
single underscores strictly between digits. -/
def digitTail : List Char → Bool
  | [] => true
  | ['_'] => false
  | '_' :: c :: rest => c.isDigit && digitTail (c :: rest)
  | c :: rest => c.isDigit && digitTail rest

/-- Digit-group validity for Python `int()`: non-empty, starts with a digit,
underscores only between digits (ASCII digits only). -/
def pyDigitsOk : List Char → Bool
  | [] => false
  | c :: rest => c.isDigit && digitTail (c :: rest)

/-- Numeric value of a digit group, skipping underscores. -/
def digitsVal (cs : List Char) : Nat :=
  cs.foldl (fun acc c => if c = '_' then acc else acc * 10 + (c.toNat - '0'.toNat)) 0

/-- Python `int(s)` on a character list: strip whitespace, optional sign,
then a valid digit group; `none` models the `ValueError` raise. -/
def pyIntChars (cs : List Char) : Option Int :=
  match pyStrip cs with
  | '+' :: rest => if pyDigitsOk rest then some ((digitsVal rest : Nat) : Int) else none
  | '-' :: rest => if pyDigitsOk rest then some (-((digitsVal rest : Nat) : Int)) else none
  | stripped => if pyDigitsOk stripped then some ((digitsVal stripped : Nat) : Int) else none

/-- Python `int(s)` as an `Except`, with the `ValueError` message. -/
def pyIntE (s : String) : Except String Int :=
  match pyIntChars s.toList with
  | some v => .ok v
  | none => .error ("invalid literal for int() with base 10: " ++ s)

/-! ## Wire codec (`MelianClient._send` header construction) -/

def HEADER_VERSION : Nat := 0x11
def ACTION_FETCH : Nat := 0x46
def ACTION_DESCRIBE : Nat := 0x44

/-- Byte list produced by `struct.pack` for a `!I` field (big-endian). -/
def packBE32 (n : Nat) : List Nat :=
  [n / 2 ^ 24 % 256, n / 2 ^ 16 % 256, n / 2 ^ 8 % 256, n % 256]

/-- Byte list produced by `struct.pack` for a `<I` field (little-endian). -/
def packLE32 (n : Nat) : List Nat :=
  [n % 256, n / 2 ^ 8 % 256, n / 2 ^ 16 % 256, n / 2 ^ 24 % 256]

/-- `struct.pack("B", n)`: one byte, raising (`none`) outside 0..255. -/
def structPackB (n : Nat) : Option (List Nat) :=
  if n ≤ 255 then some [n] else none

/-- `struct.pack("!I", n)`: raises (`none`) outside 0..2^32-1. -/
def structPackBE32 (n : Nat) : Option (List Nat) :=
  if n < 2 ^ 32 then some (packBE32 n) else none

/-- `struct.pack("<I", n)`: raises (`none`) outside 0..2^32-1. -/
def structPackLE32 (n : Nat) : Option (List Nat) :=
  if n < 2 ^ 32 then some (packLE32 n) else none

/-- `struct.pack("!BBBBI", version, action, table_id, index_id, length)`:
the 8-byte request header of `MelianClient._send`. -/
def packHeader (version action table_id index_id length : Nat) : Option (List Nat) := do
  let b0 ← structPackB version
  let b1 ← structPackB action
  let b2 ← structPackB table_id
  let b3 ← structPackB index_id
  let l4 ← structPackBE32 length
  pure (b0 ++ b1 ++ b2 ++ b3 ++ l4)

/-- The full byte string handed to `sock.sendall` in `_send`:
`header + payload`. -/
def sendBytes (action table_id index_id : Nat) (payload : List Nat) : Option (List Nat) :=
  (packHeader HEADER_VERSION action table_id index_id payload.length).map (· ++ payload)

/-- Big-endian value of a byte list (how `struct.unpack("!I", ·)` reads it). -/
def beFold (bs : List Nat) : Nat :=
  bs.foldl (fun acc b => acc * 256 + b) 0

/-- Little-endian value of a byte list. -/
def leFold (bs : List Nat) : Nat :=
  bs.foldr (fun b acc => b + 256 * acc) 0

theorem beFold_packBE32 (n : Nat) (h : n < 2 ^ 32) : beFold (packBE32 n) = n := by
  simp only [beFold, packBE32, List.foldl]
  omega

theorem leFold_packLE32 (n : Nat) (h : n < 2 ^ 32) : leFold (packLE32 n) = n := by
  simp only [leFold, packLE32, List.foldr]
  omega

theorem packBE32_length (n : Nat) : (packBE32 n).length = 4 := rfl

theorem packBE32_bytes_lt (n : Nat) : ∀ b ∈ packBE32 n, b < 256 := by
  intro b hb
  simp only [packBE32, List.mem_cons, List.not_mem_nil, or_false] at hb
  rcases hb with h | h | h | h <;> subst h <;> exact Nat.mod_lt _ (by norm_num)

/-- Claim C1: for action codes 0x46 (FETCH) / 0x44 (DESCRIBE), table and
index ids in 0..255 and any payload (with a length representable in the
4-byte field, as `struct.pack` requires), the bytes written for a request
are exactly the 8-byte header — version byte 0x11, the action byte, the
table id byte, the index id byte, and the payload length as 4 big-endian
bytes — followed immediately by the payload, nothing else. -/
theorem c1_request_layout (action table_id index_id : Nat) (payload : List Nat)
    (ha : action = ACTION_FETCH ∨ action = ACTION_DESCRIBE)
    (ht : table_id ≤ 255) (hi : index_id ≤ 255)
    (hp : payload.length < 2 ^ 32) :
    ∃ L, sendBytes action table_id index_id payload =
        some ([0x11, action, table_id, index_id] ++ L ++ payload)
      ∧ L.length = 4 ∧ (∀ b ∈ L, b < 256) ∧ beFold L = payload.length := by
  have ha' : action ≤ 255 := by rcases ha with h | h <;> subst h <;> norm_num [ACTION_FETCH, ACTION_DESCRIBE]
  refine ⟨packBE32 payload.length, ?_, packBE32_length _, packBE32_bytes_lt _,
    beFold_packBE32 _ hp⟩
  have hp' : payload.length < 4294967296 := by omega
  simp [sendBytes, packHeader, structPackB, structPackBE32, HEADER_VERSION, ha', ht, hi, hp']

/-- Witness for C1 at action FETCH, table 1, index 2, payload `[9, 9]`. -/
theorem c1_request_layout_witness :
    ((0x46 : Nat) = ACTION_FETCH ∨ (0x46 : Nat) = ACTION_DESCRIBE)
    ∧ (∃ L, sendBytes 0x46 1 2 [9, 9] = some ([0x11, 0x46, 1, 2] ++ L ++ [9, 9])
        ∧ L.length = 4 ∧ (∀ b ∈ L, b < 256) ∧ beFold L = [9, 9].length) :=
  ⟨Or.inl rfl,
   c1_request_layout 0x46 1 2 [9, 9] (Or.inl rfl) (by norm_num) (by norm_num) (by norm_num)⟩

/-! ## DSN parser (`MelianClient._parse_dsn`) -/

/-- The transport descriptor dataclass `Dsn` (only the fields relevant to
each kind are kept, matching how the code populates it). -/
inductive Dsn where
  | unix : String → Dsn
  | tcp : String → Int → Dsn
deriving DecidableEq, Repr

/-- Python `str.startswith(p)` on character lists. -/
def hasPrefixChars : List Char → List Char → Bool
  | [], _ => true
  | _ :: _, [] => false
  | p :: ps, c :: cs => p = c && hasPrefixChars ps cs

/-- `MelianClient._parse_dsn` over the character list of the DSN string:
`unix://` must be followed by a non-empty path; `tcp://` is split at the
rightmost `:` into a non-empty host and a port parsed by `int()`;
everything else raises. -/
def parseDsnChars (cs : List Char) : Except String Dsn :=
  if hasPrefixChars ['u', 'n', 'i', 'x', ':', '/', '/'] cs then
    let path := cs.drop 7
    if path.isEmpty then .error "unix DSN must include socket path"
    else .ok (.unix (String.mk path))
  else if hasPrefixChars ['t', 'c', 'p', ':', '/', '/'] cs then
    match rpartitionAux ':' (cs.drop 6) with
    | none => .error "tcp DSN must include host:port"
    | some (host, port_str) =>
      if host.isEmpty || port_str.isEmpty then .error "tcp DSN must include host:port"
      else
        match pyIntChars port_str with
        | some v => .ok (.tcp (String.mk host) v)
        | none => .error ("invalid literal for int() with base 10: " ++ String.mk port_str)
  else .error ("Unsupported DSN: " ++ String.mk cs)

def parse_dsn (s : String) : Except String Dsn :=
  parseDsnChars s.toList

/-! ## Schema data model and spec-grammar parser
(`MelianClient._load_schema_from_spec`, `_split_with_hash`) -/

structure Index where
  column : String
  id : Int
  type : String
deriving DecidableEq, Repr

structure Table where
  name : String
  id : Int
  period : Int
  indexes : List Index
deriving DecidableEq, Repr

structure Schema where
  tables : List Table
deriving DecidableEq, Repr

/-- `MelianClient._split_with_hash`: the token must contain `#`; both the
name before the first `#` and the id after it must be non-empty once
stripped. -/
def split_with_hash (value : List Char) (label : String) : Except String (String × String) :=
  match breakAtChar '#' value with
  | none => .error ("Missing # delimiter for " ++ label ++ " specification: " ++ String.mk value)
  | some (n, i) =>
    let name := pyStrip n
    let ident := pyStrip i
    if name.isEmpty || ident.isEmpty then
      .error ("Invalid " ++ label ++ " specification: " ++ String.mk value)
    else .ok (String.mk name, String.mk ident)

/-- One `;`-separated column spec inside a table chunk: blank entries are
skipped (`.ok none`), otherwise `name#id[:type]` with type defaulting to
`"int"` when the `:` is absent. -/
def parseIndexSpec (idx_spec : List Char) : Except String (Option Index) :=
  let t := pyStrip idx_spec
  if t.isEmpty then .ok none
  else
    let pieces : List Char × Option (List Char) :=
      match breakAtChar ':' t with
      | none => (t, none)
      | some (a, b) => (a, some b)
    match split_with_hash pieces.1 "index" with
    | .error e => .error e
    | .ok (column_name, column_id) =>
      match pyIntE column_id with
      | .error e => .error e
      | .ok cid =>
        let index_type :=
          match pieces.2 with
          | none => "int"
          | some ty => String.mk ty
        .ok (some { column := column_name, id := cid, type := index_type })

/-- Fold the `;`-separated column specs of a chunk in order. -/
def collectIndexes : List (List Char) → Except String (List Index)
  | [] => .ok []
  | s :: rest =>
    match parseIndexSpec s with
    | .error e => .error e
    | .ok idx =>
      match collectIndexes rest with
      | .error e => .error e
      | .ok tl =>
        match idx with
        | none => .ok tl
        | some i => .ok (i :: tl)

/-- One `,`-separated table chunk: blank chunks are skipped (`.ok none`);
otherwise at least two `|`-fields are required, the period defaults to 0
when its field is empty, and the columns field is the third `|`-field when
present (empty string otherwise).  Mirrors the statement order of the
Python loop body, including the truthiness test `if not columns_part`. -/
def parseChunk (chunk0 : List Char) : Except String (Option Table) :=
  let chunk := pyStrip chunk0
  if chunk.isEmpty then .ok none
  else
    let parts := splitOnChar '|' chunk
    if parts.length < 2 then .error ("Invalid table spec chunk: " ++ String.mk chunk)
    else
      let table_part := (parts[0]?).getD []
      let part1 := (parts[1]?).getD []
      let periodRes : Except String Int :=
        if part1.isEmpty then .ok 0 else pyIntE (String.mk part1)
      match periodRes with
      | .error e => .error e
      | .ok period =>
        let columns_part := (parts[2]?).getD []
        match split_with_hash table_part "table" with
        | .error e => .error e
        | .ok (table_name, table_id) =>
          match pyIntE table_id with
          | .error e => .error e
          | .ok tid =>
            if columns_part.isEmpty then
              .error ("Table " ++ table_name ++ " must define at least one index")
            else
              match collectIndexes (splitOnChar ';' columns_part) with
              | .error e => .error e
              | .ok idxs =>
                .ok (some { name := table_name, id := tid, period := period, indexes := idxs })

/-- Fold the `,`-separated table chunks of the spec in order. -/
def collectTables : List (List Char) → Except String (List Table)
  | [] => .ok []
  | s :: rest =>
    match parseChunk s with
    | .error e => .error e
    | .ok tb =>
      match collectTables rest with
      | .error e => .error e
      | .ok tl =>
        match tb with
        | none => .ok tl
        | some t => .ok (t :: tl)

/-- `MelianClient._load_schema_from_spec`: strip the whole spec, reject the
empty spec, parse all chunks, reject a spec yielding zero tables. -/
def load_schema_from_spec (spec : String) : Except String Schema :=
  let stripped := pyStrip spec.toList
  if stripped.isEmpty then .error "schema_spec cannot be empty"
  else
    match collectTables (splitOnChar ',' stripped) with
    | .error e => .error e
    | .ok tables =>
      if tables.isEmpty then .error "schema_spec produced no tables"
      else .ok { tables := tables }

/-! ## Index resolution (`MelianClient.resolve_index`) -/

/-- The inner loop of `resolve_index`: first index whose column matches. -/
def find_column : List Index → String → Option Index
  | [], _ => none
  | i :: rest, c => if i.column = c then some i else find_column rest c

/-- The outer loop of `resolve_index`: skip tables whose name differs; in a
matching table return the first column hit; when the matching table has no
hit the loop CONTINUES with the remaining tables. -/
def resolve_tables : List Table → String → String → Except String (Int × Int)
  | [], tn, cn => .error ("Unable to resolve index for " ++ tn ++ "." ++ cn)
  | t :: rest, tn, cn =>
    if t.name ≠ tn then resolve_tables rest tn cn
    else
      match find_column t.indexes cn with
      | some i => .ok (t.id, i.id)
      | none => resolve_tables rest tn cn

def resolve_index (s : Schema) (table_name column : String) : Except String (Int × Int) :=
  resolve_tables s.tables table_name column

/-! ## Transport session (`_ensure_connected`, `_send`, `_read_exact`, `close`)

Socket effects are scripted: the dial outcome, the `sendall` outcome and the
sequence of `recv` results are passed in explicitly.  A real `recv(k)` call
returns at most `k` bytes, so in admissible scripts each chunk is bounded by
the bytes still missing; the theorems below only use such scripts. -/

/-- One `sock.recv` outcome: a bytes object (empty means the peer closed
the connection) or a raised socket error (timeout / OSError). -/
inductive RecvOutcome where
  | chunk : List Nat → RecvOutcome
  | ioError
deriving DecidableEq, Repr

/-- Exceptions escaping `_send` / `_read_exact`: a `struct.error` from
header packing, a propagated socket error, the `RuntimeError` raised on a
zero-byte `recv`, and exhaustion of the modelled recv script (the call
would block). -/
inductive ExcErr where
  | packError
  | ioError
  | connectionClosed
  | blocked
deriving DecidableEq, Repr

/-- `MelianClient._read_exact`: repeatedly `recv` the remaining byte count;
a zero-byte result raises; otherwise the chunk is appended and the
remaining count reduced.  Returns the assembled bytes together with the
unconsumed part of the recv script. -/
def read_exact : List RecvOutcome → Nat → Except ExcErr (List Nat × List RecvOutcome)
  | rs, 0 => .ok ([], rs)
  | [], _ + 1 => .error .blocked
  | .ioError :: _, _ + 1 => .error .ioError
  | .chunk [] :: _, _ + 1 => .error .connectionClosed
  | .chunk (x :: c) :: rest, n + 1 =>
    match read_exact rest (n + 1 - (x :: c).length) with
    | .ok (bs, leftover) => .ok (x :: c ++ bs, leftover)
    | .error e => .error e

/-- The mutable `_socket` attribute of the client: `none` before the first
dial and after `close()`. -/
structure SessionState where
  sock : Option Nat
deriving DecidableEq, Repr

/-- `MelianClient.close`: the socket handle, if any, is closed and the
attribute reset to `None`. -/
def close (st : SessionState) : SessionState :=
  { st with sock := none }

/-- `MelianClient._ensure_connected`: reuse an existing socket, otherwise
dial (outcome scripted) and retain the handle. -/
def ensure_connected (st : SessionState) (dial : Except Unit Nat) :
    Except Unit (Nat × SessionState) :=
  match st.sock with
  | some s => .ok (s, st)
  | none =>
    match dial with
    | .error e => .error e
    | .ok h => .ok (h, ⟨some h⟩)

/-- `MelianClient._send`: connect, pack the header, `sendall`, read the
4-byte big-endian length, then — only when the length is non-zero — read
the payload.  Every raise propagates without touching `_socket`, so the
state after the call is returned alongside the result. -/
def sendExchange (st : SessionState) (dial : Except Unit Nat) (sendRes : Except Unit Unit)
    (recvs : List RecvOutcome) (action table_id index_id : Nat) (payload : List Nat) :
    Except ExcErr (List Nat) × SessionState :=
  match ensure_connected st dial with
  | .error _ => (.error .ioError, st)
  | .ok (_, st1) =>
    match sendBytes action table_id index_id payload with
    | none => (.error .packError, st1)
    | some _ =>
      match sendRes with
      | .error _ => (.error .ioError, st1)
      | .ok _ =>
        match read_exact recvs 4 with
        | .error e => (.error e, st1)
        | .ok (length_bytes, rest) =>
          if beFold length_bytes = 0 then (.ok [], st1)
          else
            match read_exact rest (beFold length_bytes) with
            | .error e => (.error e, st1)
            | .ok (payload_bytes, _) => (.ok payload_bytes, st1)

/-! ## Python values and the fetch decode step (`fetch_by_string`) -/

/-- JSON-equivalent Python values, as far as the client inspects them. -/
inductive PyVal where
  | vStr : String → PyVal
  | vInt : Int → PyVal
  | vBool : Bool → PyVal
  | vList : List PyVal → PyVal
  | vDict : List (String × PyVal) → PyVal

abbrev PyDict := List (String × PyVal)

/-- Errors escaping `fetch_by_string`: a propagated `_send` failure, a
`json.loads` failure, or the `RuntimeError` for a non-object payload. -/
inductive FetchErr where
  | send : ExcErr → FetchErr
  | jsonError
  | notObject

/-- The post-processing of `fetch_by_string` applied to the raw
`fetch_raw` outcome: an empty payload yields `None`; otherwise the payload
is decoded (the external `json.loads` is the scripted `decode` argument)
and must be an object. -/
def fetch_by_string_post (raw : Except ExcErr (List Nat))
    (decode : List Nat → Option PyVal) : Except FetchErr (Option PyDict) :=
  match raw with
  | .error e => .error (.send e)
  | .ok payload =>
    if payload.isEmpty then .ok none
    else
      match decode payload with
      | none => .error .jsonError
      | some (.vDict d) => .ok (some d)
      | some _ => .error .notObject

/-- `MelianClient.fetch_raw` range validation composed with the request
frame construction: the frame actually written for a FETCH. -/
def fetch_raw_request (table_id index_id : Nat) (key : List Nat) : Option (List Nat) :=
  if table_id ≤ 255 && index_id ≤ 255 then sendBytes ACTION_FETCH table_id index_id key
  else none

/-- `MelianClient.fetch_by_int`: the key is `struct.pack("<I", record_id)`
and is passed to the FETCH path unchanged. -/
def fetch_by_int_request (table_id index_id record_id : Nat) : Option (List Nat) :=
  (structPackLE32 record_id).bind (fetch_raw_request table_id index_id)

/-! ## Schema bootstrap (`MelianClient._bootstrap_schema`) -/

/-- What `_bootstrap_schema` decides to do next.  Only `loadFile` and
`liveDescribe` perform I/O. -/
inductive BootAction where
  | errAmbiguous
  | useProvided : PyDict → BootAction
  | parseSpec : String → BootAction
  | loadFile : String → BootAction
  | liveDescribe

/-- Python truthiness of the optional `schema` dict argument. -/
def truthyDictArg : Option PyDict → Bool
  | none => false
  | some d => !d.isEmpty

/-- Python truthiness of an optional string argument. -/
def truthyStrArg : Option String → Bool
  | none => false
  | some s => !s.isEmpty

/-- `sum([bool(schema), bool(schema_spec), bool(schema_file)])`. -/
def providedCount (schema : Option PyDict) (schema_spec schema_file : Option String) : Nat :=
  (if truthyDictArg schema then 1 else 0)
  + (if truthyStrArg schema_spec then 1 else 0)
  + (if truthyStrArg schema_file then 1 else 0)

/-- `MelianClient._bootstrap_schema`: ambiguity check by truthiness count,
then `is not None` dispatch in priority order. -/
def bootstrap_schema (schema : Option PyDict) (schema_spec schema_file : Option String) :
    BootAction :=
  if 1 < providedCount schema schema_spec schema_file then .errAmbiguous
  else
    match schema, schema_spec, schema_file with
    | some d, _, _ => .useProvided d
    | none, some s, _ => .parseSpec s
    | none, none, some f => .loadFile f
    | none, none, none => .liveDescribe

/-! ## Claim C2: index resolution order -/

theorem find_column_eq_find? (l : List Index) (c : String) :
    find_column l c = l.find? (fun i => i.column == c) := by
  induction l with
  | nil => rfl
  | cons i rest ih =>
    by_cases h : i.column = c
    · simp [find_column, h, List.find?_cons_of_pos]
    · have hb : (i.column == c) = false := by simp [h]
      simp [find_column, h, List.find?_cons_of_neg, hb, ih]

/-- Claim C2 (amended): `resolve_index` scans the `(table, index)` pairs in
schema order and returns the ids of the FIRST table that both matches the
requested name and contains the requested column (within it, the first
matching index); a name-matching table without the column does NOT stop the
scan.  When no name-matching table contains the column the lookup fails
with the `IndexNotFound` error naming both inputs. -/
theorem c2_resolve_index_first_hit (s : Schema) (table_name column : String) :
    resolve_index s table_name column =
      match s.tables.find?
          (fun t => t.name == table_name && t.indexes.any (fun i => i.column == column)) with
      | some t =>
        (match t.indexes.find? (fun i => i.column == column) with
         | some i => .ok (t.id, i.id)
         | none => .error ("Unable to resolve index for " ++ table_name ++ "." ++ column))
      | none => .error ("Unable to resolve index for " ++ table_name ++ "." ++ column) := by
  show resolve_tables s.tables table_name column = _
  induction s.tables with
  | nil => rfl
  | cons t rest ih =>
    simp only [resolve_tables]
    by_cases hname : t.name = table_name
    · rw [if_neg (by simp [hname])]
      rcases hfc : find_column t.indexes column with _ | i
      · have hany : t.indexes.any (fun i => i.column == column) = false := by
          rw [List.any_eq_false]
          intro i hi
          have := List.find?_eq_none.mp (find_column_eq_find? _ _ ▸ hfc) i hi
          simpa using this
        have hp : (t.name == table_name && t.indexes.any (fun i => i.column == column)) = false := by
          simp [hany]
        have hstep :
            List.find? (fun t => t.name == table_name && t.indexes.any fun i => i.column == column)
              (t :: rest) =
            List.find? (fun t => t.name == table_name && t.indexes.any fun i => i.column == column)
              rest :=
          List.find?_cons_of_neg rest (by simp [hp])
        rw [hstep]
        exact ih
      · have hfind : t.indexes.find? (fun i => i.column == column) = some i := by
          rw [← find_column_eq_find?]; exact hfc
        have hany : t.indexes.any (fun i => i.column == column) = true := by
          rw [List.any_eq_true]
          exact ⟨i, List.mem_of_find?_eq_some hfind, by
            simpa using (List.find?_some hfind)⟩
        have hp : (t.name == table_name && t.indexes.any (fun i => i.column == column)) = true := by
          simp [hname, hany]
        have hstep :
            List.find? (fun t => t.name == table_name && t.indexes.any fun i => i.column == column)
              (t :: rest) = some t :=
          List.find?_cons_of_pos rest hp
        rw [hstep]
        simp only [hfind]
    · rw [if_pos hname]
      have hp : (t.name == table_name && t.indexes.any (fun i => i.column == column)) = false := by
        simp [hname]
      have hstep :
          List.find? (fun t => t.name == table_name && t.indexes.any fun i => i.column == column)
            (t :: rest) =
          List.find? (fun t => t.name == table_name && t.indexes.any fun i => i.column == column)
            rest :=
        List.find?_cons_of_neg rest (by simp [hp])
      rw [hstep]
      exact ih

/-- Counterexample to claim C2 as stated: with two tables both named `"t"`,
the first of which has no `"b"` index, the claim predicts `IndexNotFound`;
the code instead keeps scanning and resolves `"t"."b"` from the SECOND
same-named table, returning `(2, 5)`. -/
theorem c2_counterexample_duplicate_tables :
    find_column [⟨"a", 0, "int"⟩] "b" = none
    ∧ resolve_index ⟨[⟨"t", 1, 0, [⟨"a", 0, "int"⟩]⟩, ⟨"t", 2, 0, [⟨"b", 5, "int"⟩]⟩]⟩ "t" "b" =
        .ok (2, 5) :=
  ⟨rfl, rfl⟩

/-! ## Claim C3: ambiguous schema sources -/

/-- Claim C3 (amended): construction fails with `AmbiguousSchemaSource`
exactly when more than one of the three schema sources is supplied with a
TRUTHY value (non-`None` and non-empty); the check happens before any file
or socket I/O.  Supplying two sources where one is falsy (`{}` or `""`)
does not trigger the ambiguity error. -/
theorem c3_ambiguity_iff_truthy_count (schema : Option PyDict)
    (schema_spec schema_file : Option String) :
    bootstrap_schema schema schema_spec schema_file = .errAmbiguous ↔
      1 < providedCount schema schema_spec schema_file := by
  by_cases h : 1 < providedCount schema schema_spec schema_file
  · simp [bootstrap_schema, h]
  · simp only [bootstrap_schema, if_neg h, iff_false_intro h, iff_false]
    rcases schema with _ | d <;> rcases schema_spec with _ | s <;> rcases schema_file with _ | f <;>
      simp

/-- Counterexample to claim C3 as stated: `schema_spec=""` and
`schema_file="schema.json"` are both supplied (non-`None`), yet the
truthiness-based count sees only one source, so construction proceeds to
parse the empty spec and fails with the empty-spec error instead of
`AmbiguousSchemaSource`. -/
theorem c3_counterexample_falsy_source :
    bootstrap_schema none (some "") (some "schema.json") = .parseSpec ""
    ∧ load_schema_from_spec "" = .error "schema_spec cannot be empty" :=
  ⟨rfl, rfl⟩

/-! ## Claim C4: tables with zero column specs -/

/-- Claim C4 (code bug): the code rejects a table only when the columns
FIELD is the empty string; a columns field that is non-empty but parses to
zero column specs (here `";"`) slips through the truthiness guard and
produces a table with an empty `indexes` list, contradicting the code's own
"must define at least one index" error.  The second conjunct shows the
empty-field case that IS rejected. -/
theorem c4_zero_index_table_accepted :
    load_schema_from_spec "t#0|60|;" = .ok ⟨[⟨"t", 0, 60, []⟩]⟩
    ∧ load_schema_from_spec "t#0|60|" = .error "Table t must define at least one index" :=
  ⟨rfl, rfl⟩

/-! ## Claim C8: the documented example spec -/

/-- Claim C8: parsing the example spec yields exactly two tables in spec
order — `table1` (id 0, period 60, single index `id`→0 of type `int`) and
`table2` (id 1, period 60, indexes `id`→0 of type `int` then
`hostname`→1 of type `string`). -/
theorem c8_example_spec :
    load_schema_from_spec "table1#0|60|id#0:int,table2#1|60|id#0:int;hostname#1:string" =
      .ok ⟨[⟨"table1", 0, 60, [⟨"id", 0, "int"⟩]⟩,
            ⟨"table2", 1, 60, [⟨"id", 0, "int"⟩, ⟨"hostname", 1, "string"⟩]⟩]⟩ :=
  rfl

/-! ## Claim C6: little-endian integer keys -/

/-- Claim C6: for every `record_id` below 2^32, `fetch_by_int` encodes the
key as exactly 4 bytes in little-endian unsigned order and passes those
bytes unchanged as the FETCH payload, while the frame header length field
remains big-endian (`[0, 0, 0, 4]` for the 4-byte key). -/
theorem c6_fetch_by_int_key (table_id index_id record_id : Nat)
    (ht : table_id ≤ 255) (hi : index_id ≤ 255) (hr : record_id < 2 ^ 32) :
    structPackLE32 record_id = some (packLE32 record_id)
    ∧ (packLE32 record_id).length = 4
    ∧ leFold (packLE32 record_id) = record_id
    ∧ fetch_by_int_request table_id index_id record_id =
        some ([0x11, ACTION_FETCH, table_id, index_id] ++ [0, 0, 0, 4] ++ packLE32 record_id) := by
  have hr' : record_id < 4294967296 := by omega
  refine ⟨by simp [structPackLE32, hr'], rfl, leFold_packLE32 _ hr, ?_⟩
  have hlen : (packLE32 record_id).length = 4 := rfl
  simp [fetch_by_int_request, structPackLE32, hr', fetch_raw_request, ht, hi,
    sendBytes, packHeader, structPackB, structPackBE32, HEADER_VERSION, ACTION_FETCH, packBE32,
    hlen]

/-- Witness for C6 at table 1, index 2, record_id 5. -/
theorem c6_fetch_by_int_key_witness :
    structPackLE32 5 = some (packLE32 5)
    ∧ (packLE32 5).length = 4
    ∧ leFold (packLE32 5) = 5
    ∧ fetch_by_int_request 1 2 5 =
        some ([0x11, ACTION_FETCH, 1, 2] ++ [0, 0, 0, 4] ++ packLE32 5) :=
  c6_fetch_by_int_key 1 2 5 (by norm_num) (by norm_num) (by norm_num)

/-! ## Claim C7: exact-length reads -/

/-- Claim C7: for every requested size `n` and every sequence of non-empty
partial deliveries whose lengths sum to `n`, `_read_exact` returns exactly
their concatenation, consuming nothing further; and whenever a zero-byte
`recv` result arrives before `n` bytes have accumulated, it fails with the
`ConnectionClosed` error immediately (whatever the rest of the script
holds, so the failed read is not retried). -/
theorem c7_read_exact_spec (n : Nat) :
    (∀ ds : List (List Nat), (∀ d ∈ ds, d ≠ []) → (ds.map List.length).sum = n →
      read_exact (ds.map RecvOutcome.chunk) n = .ok (ds.flatten, []))
    ∧ (∀ (pre : List (List Nat)) (rest : List RecvOutcome),
        (∀ d ∈ pre, d ≠ []) → (pre.map List.length).sum < n →
        read_exact (pre.map RecvOutcome.chunk ++ RecvOutcome.chunk [] :: rest) n =
          .error .connectionClosed) := by
  constructor
  · intro ds
    induction ds generalizing n with
    | nil =>
      intro _ hs
      simp only [List.map_nil, List.sum_nil] at hs
      subst hs
      rfl
    | cons d ds ih =>
      intro hne hs
      obtain ⟨x, c, rfl⟩ : ∃ x c, d = x :: c := by
        rcases d with _ | ⟨x, c⟩
        · exact absurd rfl (hne [] (List.mem_cons_self _ _))
        · exact ⟨x, c, rfl⟩
      simp only [List.map_cons, List.sum_cons] at hs
      rcases n with _ | m
      · simp [List.length] at hs
      · simp only [List.map_cons, read_exact]
        have hrem : m + 1 - (x :: c).length = (ds.map List.length).sum := by
          simp only [List.length_cons] at hs ⊢
          omega
        rw [hrem, ih _ (fun d hd => hne d (List.mem_cons_of_mem _ hd)) rfl]
        simp
  · intro pre
    induction pre generalizing n with
    | nil =>
      intro rest _ hlt
      simp only [List.map_nil, List.sum_nil] at hlt
      rcases n with _ | m
      · omega
      · rfl
    | cons d pre ih =>
      intro rest hne hlt
      obtain ⟨x, c, rfl⟩ : ∃ x c, d = x :: c := by
        rcases d with _ | ⟨x, c⟩
        · exact absurd rfl (hne [] (List.mem_cons_self _ _))
        · exact ⟨x, c, rfl⟩
      simp only [List.map_cons, List.sum_cons] at hlt
      rcases n with _ | m
      · omega
      · simp only [List.map_cons, List.cons_append, read_exact, List.append_eq]
        have hsum : ((pre.map List.length).sum) < m + 1 - (x :: c).length := by
          simp only [List.length_cons] at hlt ⊢
          omega
        rw [ih _ rest (fun d hd => hne d (List.mem_cons_of_mem _ hd)) hsum]

/-- Witness for C7 at size 3: deliveries `[1]` then `[2, 3]` assemble to
`[1, 2, 3]`; a zero-byte delivery after only one byte fails. -/
theorem c7_read_exact_spec_witness :
    read_exact ([[1], [2, 3]].map RecvOutcome.chunk) 3 = .ok ([[1], [2, 3]].flatten, [])
    ∧ read_exact ([[1]].map RecvOutcome.chunk ++ RecvOutcome.chunk [] :: []) 3 =
        .error .connectionClosed :=
  ⟨(c7_read_exact_spec 3).1 [[1], [2, 3]] (by decide) (by decide),
   (c7_read_exact_spec 3).2 [[1]] [] (by decide) (by decide)⟩

/-! ## Claim C9: socket state on failed exchanges -/

/-- Claim C9 (amended): once the session holds a socket, every exchange —
failing or not — leaves the `_socket` attribute exactly as it was: no error
path clears or closes it; only `close()` resets it to `None`, and `close()`
is idempotent.  (Starting disconnected, a failing exchange may still
RETAIN a freshly dialed socket, which is why the claim's blanket
"unchanged" needs the connected precondition; see the counterexample.) -/
theorem c9_connected_socket_preserved (st : SessionState) (s : Nat)
    (dial : Except Unit Nat) (sendRes : Except Unit Unit) (recvs : List RecvOutcome)
    (action table_id index_id : Nat) (payload : List Nat)
    (hconn : st.sock = some s) :
    (sendExchange st dial sendRes recvs action table_id index_id payload).2 = st
    ∧ close (close st) = close st
    ∧ (close st).sock = none := by
  refine ⟨?_, rfl, rfl⟩
  have hec : ensure_connected st dial = .ok (s, st) := by
    simp [ensure_connected, hconn]
  simp only [sendExchange, hec]
  rcases sendBytes action table_id index_id payload with _ | f
  · rfl
  · rcases sendRes with _ | _
    · rfl
    · rcases read_exact recvs 4 with e | ⟨L, rest⟩
      · rfl
      · by_cases hz : beFold L = 0
        · simp [hz]
        · simp only [if_neg hz]
          rcases read_exact rest (beFold L) with e | ⟨pb, rest2⟩ <;> rfl

/-- Witness for C9 (amended) on a connected session whose `sendall` fails. -/
theorem c9_connected_socket_preserved_witness :
    (sendExchange ⟨some 5⟩ (.ok 9) (.error ()) [] ACTION_FETCH 0 0 []).2 =
      (⟨some 5⟩ : SessionState)
    ∧ close (close ⟨some 5⟩) = close ⟨some 5⟩
    ∧ (close (⟨some 5⟩ : SessionState)).sock = none :=
  c9_connected_socket_preserved ⟨some 5⟩ 5 (.ok 9) (.error ()) [] ACTION_FETCH 0 0 [] rfl

/-- Counterexample to claim C9 as stated: an exchange that starts
disconnected, dials successfully (handle 7) and then fails in `sendall`
leaves the socket field CHANGED from `None` to the new socket — the field
is not "left unchanged" by every failing exchange (though it is never
cleared). -/
theorem c9_counterexample_fresh_dial :
    sendExchange ⟨none⟩ (.ok 7) (.error ()) [] ACTION_FETCH 0 0 [] =
      (.error .ioError, ⟨some 7⟩)
    ∧ (⟨some 7⟩ : SessionState) ≠ (⟨none⟩ : SessionState) :=
  ⟨rfl, by decide⟩

/-! ## Claim C10: empty responses mean "not found" -/

/-- Claim C10: when the 4 length-prefix bytes decode to zero, `_send`
returns the empty byte string without attempting a payload read (the
conclusion holds for EVERY remainder of the recv script, including an
empty one that would fail any further read), and `fetch_by_string` turns
the empty payload into `None` — never an error and never invoking the JSON
decoder — so "record absent" is distinguishable from every failure. -/
theorem c10_empty_response (st : SessionState) (s : Nat) (dial : Except Unit Nat)
    (recvs rest : List RecvOutcome) (L : List Nat) (table_id index_id : Nat) (key : List Nat)
    (hconn : st.sock = some s) (ht : table_id ≤ 255) (hi : index_id ≤ 255)
    (hk : key.length < 2 ^ 32)
    (hread : read_exact recvs 4 = .ok (L, rest)) (hzero : beFold L = 0) :
    sendExchange st dial (.ok ()) recvs ACTION_FETCH table_id index_id key = (.ok [], st)
    ∧ (∀ decode : List Nat → Option PyVal, fetch_by_string_post (.ok []) decode = .ok none)
    ∧ (∀ (decode : List Nat → Option PyVal) (e : FetchErr),
        fetch_by_string_post (.ok []) decode ≠ .error e) := by
  refine ⟨?_, fun _ => rfl, fun _ e h => by simp [fetch_by_string_post] at h⟩
  have hec : ensure_connected st dial = .ok (s, st) := by
    simp [ensure_connected, hconn]
  have hk' : key.length < 4294967296 := by omega
  have hsb : sendBytes ACTION_FETCH table_id index_id key =
      some ([0x11, ACTION_FETCH, table_id, index_id] ++ packBE32 key.length ++ key) := by
    simp [sendBytes, packHeader, structPackB, structPackBE32, HEADER_VERSION, ACTION_FETCH,
      ht, hi, hk']
  simp [sendExchange, hec, hsb, hread, hzero]

/-- Witness for C10: a connected session receiving length prefix
`[0, 0, 0, 0]` with nothing after it. -/
theorem c10_empty_response_witness :
    sendExchange ⟨some 1⟩ (.ok 1) (.ok ()) [RecvOutcome.chunk [0, 0, 0, 0]] ACTION_FETCH 0 0 [] =
      (.ok [], ⟨some 1⟩)
    ∧ (∀ decode : List Nat → Option PyVal, fetch_by_string_post (.ok []) decode = .ok none)
    ∧ (∀ (decode : List Nat → Option PyVal) (e : FetchErr),
        fetch_by_string_post (.ok []) decode ≠ .error e) :=
  c10_empty_response ⟨some 1⟩ 1 (.ok 1) [RecvOutcome.chunk [0, 0, 0, 0]] [] [0, 0, 0, 0]
    0 0 [] rfl (by norm_num) (by norm_num) (by norm_num) rfl rfl

/-! ## Claim C5: DSN parsing -/

theorem hasPrefixChars_eq_true_iff (p cs : List Char) :
    hasPrefixChars p cs = true ↔ ∃ t, cs = p ++ t := by
  induction p generalizing cs with
  | nil => simp [hasPrefixChars]
  | cons a ps ih =>
    cases cs with
    | nil => simp [hasPrefixChars]
    | cons c cs' =>
      simp only [hasPrefixChars, Bool.and_eq_true, decide_eq_true_eq, ih, List.cons_append,
        List.cons.injEq]
      constructor
      · rintro ⟨rfl, t, rfl⟩
        exact ⟨t, rfl, rfl⟩
      · rintro ⟨t, rfl, rfl⟩
        exact ⟨rfl, t, rfl⟩

theorem rpartitionAux_eq_none_iff (c : Char) (l : List Char) :
    rpartitionAux c l = none ↔ c ∉ l := by
  induction l with
  | nil => simp [rpartitionAux]
  | cons x xs ih =>
    simp only [rpartitionAux, List.mem_cons]
    rcases h : rpartitionAux c xs with _ | ⟨a, b⟩
    · by_cases hx : x = c
      · subst hx
        simp
      · rw [if_neg hx]
        have hxs : c ∉ xs := ih.mp h
        constructor
        · intro _ hor
          rcases hor with hcx | hm
          · exact hx hcx.symm
          · exact hxs hm
        · intro _
          rfl
    · constructor
      · intro hcontra
        exact absurd hcontra (by simp)
      · intro hni
        have hnone : rpartitionAux c xs = none := ih.mpr (fun hm => hni (Or.inr hm))
        rw [h] at hnone
        exact absurd hnone (by simp)

theorem rpartitionAux_eq_some_iff (c : Char) (l a b : List Char) :
    rpartitionAux c l = some (a, b) ↔ l = a ++ c :: b ∧ c ∉ b := by
  induction l generalizing a with
  | nil =>
    constructor
    · intro h
      exact absurd h (by simp [rpartitionAux])
    · rintro ⟨h, _⟩
      exact absurd h (by simp)
  | cons x xs ih =>
    constructor
    · intro h
      simp only [rpartitionAux] at h
      rcases h2 : rpartitionAux c xs with _ | ⟨a', b'⟩ <;> rw [h2] at h
      · by_cases hx : x = c
        · rw [if_pos hx] at h
          obtain ⟨rfl, rfl⟩ : [] = a ∧ xs = b := by
            simpa [eq_comm] using h
          exact ⟨by rw [hx]; rfl, (rpartitionAux_eq_none_iff c xs).mp h2⟩
        · rw [if_neg hx] at h
          exact absurd h (by simp)
      · obtain ⟨rfl, rfl⟩ : x :: a' = a ∧ b' = b := by
          simpa [eq_comm] using h
        obtain ⟨hxs, hnb⟩ := (ih a').mp h2
        exact ⟨by rw [hxs]; rfl, hnb⟩
    · rintro ⟨heq, hnb⟩
      rcases a with _ | ⟨y, a'⟩
      · obtain ⟨rfl, rfl⟩ : x = c ∧ xs = b := by simpa using heq
        simp [rpartitionAux, (rpartitionAux_eq_none_iff _ _).mpr hnb]
      · obtain ⟨rfl, heq2⟩ : x = y ∧ xs = a' ++ c :: b := by simpa using heq
        have hrec := (ih a').mpr ⟨heq2, hnb⟩
        simp [rpartitionAux, hrec]

theorem parseDsnChars_unix_append (t0 : List Char) :
    parseDsnChars (['u', 'n', 'i', 'x', ':', '/', '/'] ++ t0) =
      if t0.isEmpty then .error "unix DSN must include socket path"
      else .ok (.unix (String.mk t0)) := rfl

theorem parseDsnChars_tcp_append (t0 : List Char) :
    parseDsnChars (['t', 'c', 'p', ':', '/', '/'] ++ t0) =
      match rpartitionAux ':' t0 with
      | none => .error "tcp DSN must include host:port"
      | some (host, port_str) =>
        if host.isEmpty || port_str.isEmpty then .error "tcp DSN must include host:port"
        else
          match pyIntChars port_str with
          | some v => .ok (.tcp (String.mk host) v)
          | none => .error ("invalid literal for int() with base 10: " ++ String.mk port_str) :=
  rfl

theorem parseDsnChars_unsupported (cs : List Char)
    (hu : hasPrefixChars ['u', 'n', 'i', 'x', ':', '/', '/'] cs = false)
    (ht : hasPrefixChars ['t', 'c', 'p', ':', '/', '/'] cs = false) :
    parseDsnChars cs = .error ("Unsupported DSN: " ++ String.mk cs) := by
  simp [parseDsnChars, hu, ht]

theorem parseDsnChars_ok_unix_iff (cs : List Char) (p : String) :
    parseDsnChars cs = .ok (.unix p) ↔
      ∃ pl, pl ≠ [] ∧ cs = ['u', 'n', 'i', 'x', ':', '/', '/'] ++ pl ∧ p = String.mk pl := by
  constructor
  · intro h
    rcases hu : hasPrefixChars ['u', 'n', 'i', 'x', ':', '/', '/'] cs with _ | _
    · rcases ht : hasPrefixChars ['t', 'c', 'p', ':', '/', '/'] cs with _ | _
      · rw [parseDsnChars_unsupported cs hu ht] at h
        exact absurd h (by simp)
      · obtain ⟨t0, rfl⟩ := (hasPrefixChars_eq_true_iff _ _).mp ht
        rw [parseDsnChars_tcp_append] at h
        rcases hr : rpartitionAux ':' t0 with _ | ⟨host, ps⟩ <;> simp only [hr] at h
        · exact absurd h (by simp)
        · by_cases he : (host.isEmpty || ps.isEmpty) = true
          · rw [if_pos he] at h
            exact absurd h (by simp)
          · rw [if_neg he] at h
            rcases hp : pyIntChars ps with _ | v <;> simp only [hp] at h <;>
              exact absurd h (by simp)
    · obtain ⟨t0, rfl⟩ := (hasPrefixChars_eq_true_iff _ _).mp hu
      rw [parseDsnChars_unix_append] at h
      rcases t0 with _ | ⟨x, xs⟩
      · exact absurd h (by simp)
      · simp only [List.isEmpty_cons, if_neg] at h
        obtain rfl : p = String.mk (x :: xs) := by simpa [eq_comm] using h
        exact ⟨x :: xs, by simp, rfl, rfl⟩
  · rintro ⟨pl, hne, rfl, rfl⟩
    rw [parseDsnChars_unix_append]
    rcases pl with _ | ⟨x, xs⟩
    · exact absurd rfl hne
    · simp

theorem parseDsnChars_ok_tcp_iff (cs : List Char) (h0 : String) (v : Int) :
    parseDsnChars cs = .ok (.tcp h0 v) ↔
      ∃ a b, a ≠ [] ∧ b ≠ [] ∧ ':' ∉ b
        ∧ cs = ['t', 'c', 'p', ':', '/', '/'] ++ a ++ ':' :: b
        ∧ pyIntChars b = some v ∧ h0 = String.mk a := by
  constructor
  · intro h
    rcases hu : hasPrefixChars ['u', 'n', 'i', 'x', ':', '/', '/'] cs with _ | _
    · rcases ht : hasPrefixChars ['t', 'c', 'p', ':', '/', '/'] cs with _ | _
      · rw [parseDsnChars_unsupported cs hu ht] at h
        exact absurd h (by simp)
      · obtain ⟨t0, rfl⟩ := (hasPrefixChars_eq_true_iff _ _).mp ht
        rw [parseDsnChars_tcp_append] at h
        rcases hr : rpartitionAux ':' t0 with _ | ⟨host, ps⟩ <;> simp only [hr] at h
        · exact absurd h (by simp)
        · by_cases he : (host.isEmpty || ps.isEmpty) = true
          · rw [if_pos he] at h
            exact absurd h (by simp)
          · rw [if_neg he] at h
            rcases hp : pyIntChars ps with _ | v' <;> simp only [hp] at h
            · exact absurd h (by simp)
            · obtain ⟨hh, hv⟩ : String.mk host = h0 ∧ v' = v := by simpa using h
              obtain ⟨hdecomp, hnb⟩ := (rpartitionAux_eq_some_iff ':' t0 host ps).mp hr
              obtain ⟨hhost, hps⟩ : ¬host.isEmpty = true ∧ ¬ps.isEmpty = true := by
                constructor <;> intro hc <;> exact he (by simp [hc])
              refine ⟨host, ps, by simpa using hhost, by simpa using hps, hnb, ?_, ?_, hh.symm⟩
              · rw [hdecomp, List.append_assoc]
              · rw [← hv]
                exact hp
    · obtain ⟨t0, rfl⟩ := (hasPrefixChars_eq_true_iff _ _).mp hu
      rw [parseDsnChars_unix_append] at h
      rcases t0 with _ | ⟨x, xs⟩ <;> exact absurd h (by simp)
  · rintro ⟨a, b, ha, hb, hnb, rfl, hpy, rfl⟩
    rw [List.append_assoc, parseDsnChars_tcp_append,
      (rpartitionAux_eq_some_iff ':' (a ++ ':' :: b) a b).mpr ⟨rfl, hnb⟩]
    simp [ha, hb, hpy]

theorem parseDsnChars_error_iff (cs : List Char) :
    (∃ e, parseDsnChars cs = .error e) ↔
      ¬ (∃ pl, pl ≠ [] ∧ cs = ['u', 'n', 'i', 'x', ':', '/', '/'] ++ pl)
      ∧ ¬ (∃ a b, a ≠ [] ∧ b ≠ [] ∧ ':' ∉ b
            ∧ cs = ['t', 'c', 'p', ':', '/', '/'] ++ a ++ ':' :: b
            ∧ (pyIntChars b).isSome) := by
  constructor
  · rintro ⟨e, he⟩
    constructor
    · rintro ⟨pl, hne, rfl⟩
      have hok : parseDsnChars (['u', 'n', 'i', 'x', ':', '/', '/'] ++ pl) =
          .ok (.unix (String.mk pl)) :=
        (parseDsnChars_ok_unix_iff _ _).mpr ⟨pl, hne, rfl, rfl⟩
      rw [he] at hok
      exact absurd hok (by simp)
    · rintro ⟨a, b, ha, hb, hnb, rfl, hpy⟩
      obtain ⟨v, hv⟩ := Option.isSome_iff_exists.mp hpy
      have hok : parseDsnChars (['t', 'c', 'p', ':', '/', '/'] ++ a ++ ':' :: b) =
          .ok (.tcp (String.mk a) v) :=
        (parseDsnChars_ok_tcp_iff _ _ _).mpr ⟨a, b, ha, hb, hnb, rfl, hv, rfl⟩
      rw [he] at hok
      exact absurd hok (by simp)
  · rintro ⟨h1, h2⟩
    rcases hres : parseDsnChars cs with e | d
    · exact ⟨e, rfl⟩
    · rcases d with p | ⟨hst, v⟩
      · obtain ⟨pl, hne, hcs, _⟩ := (parseDsnChars_ok_unix_iff cs p).mp hres
        exact absurd ⟨pl, hne, hcs⟩ h1
      · obtain ⟨a, b, ha, hb, hnb, hcs, hpyv, _⟩ := (parseDsnChars_ok_tcp_iff cs hst v).mp hres
        exact absurd ⟨a, b, ha, hb, hnb, hcs, by simp [hpyv]⟩ h2

/-- Claim C5 (amended): the DSN parser returns `Unix{path}` exactly for
`unix://` followed by a non-empty path, returns `Tcp{host, port}` exactly
when the remainder after `tcp://` splits at its rightmost `:` into a
non-empty host and a non-empty port string accepted by Python `int()` —
which may be NEGATIVE (or signed, whitespace-padded, underscore-grouped) —
and fails with `InvalidDsn` for every other input. -/
theorem c5_dsn_characterization (cs : List Char) :
    (∀ p, parseDsnChars cs = .ok (.unix p) ↔
      ∃ pl, pl ≠ [] ∧ cs = ['u', 'n', 'i', 'x', ':', '/', '/'] ++ pl ∧ p = String.mk pl)
    ∧ (∀ h v, parseDsnChars cs = .ok (.tcp h v) ↔
      ∃ a b, a ≠ [] ∧ b ≠ [] ∧ ':' ∉ b
        ∧ cs = ['t', 'c', 'p', ':', '/', '/'] ++ a ++ ':' :: b
        ∧ pyIntChars b = some v ∧ h = String.mk a)
    ∧ ((∃ e, parseDsnChars cs = .error e) ↔
      ¬ (∃ pl, pl ≠ [] ∧ cs = ['u', 'n', 'i', 'x', ':', '/', '/'] ++ pl)
      ∧ ¬ (∃ a b, a ≠ [] ∧ b ≠ [] ∧ ':' ∉ b
            ∧ cs = ['t', 'c', 'p', ':', '/', '/'] ++ a ++ ':' :: b
            ∧ (pyIntChars b).isSome)) :=
  ⟨fun p => parseDsnChars_ok_unix_iff cs p,
   fun h v => parseDsnChars_ok_tcp_iff cs h v,
   parseDsnChars_error_iff cs⟩

/-- Counterexample to claim C5 as stated: the claim requires a NON-NEGATIVE
port and `InvalidDsn` for a negative one, but `int(port_str)` accepts a
sign, so `tcp://h:-1` parses successfully to `Tcp{h, -1}`. -/
theorem c5_counterexample_negative_port :
    parse_dsn "tcp://h:-1" = .ok (.tcp "h" (-1)) := rfl

end Melian
